import Mathlib

set_option autoImplicit false

namespace Unkline

/-- Origin tag of a ban record: statically configured (conf file) or
runtime-added ("database"; the source tests `IsConfDatabase(conf)`). -/
inductive Origin where
  | static
  | database
deriving DecidableEq, Repr

/-- A ban record of the K-line registry: the fields of `struct MaskItem`
the UNKLINE subsystem reads — the user pattern, the host pattern and the
origin tag. -/
structure MaskItem where
  user : String
  host : String
  origin : Origin
deriving DecidableEq, Repr

/-- The K-line registry: the in-memory store of active ban records. -/
abbrev Registry := List MaskItem

/-- Does record `c` carry exactly the key `(user, host)`? Modelled from the
spec: revocation uses exact-pattern lookup on the (userPattern, hostPattern)
pair, not address-overlap lookup (spec §4.2 `find`); the address-hash
internals of `find_conf_by_address` are outside the sample. -/
def keyMatch (user host : String) (c : MaskItem) : Bool :=
  c.user == user && c.host == host

/-- Modelled from the spec: `find_conf_by_address` as invoked by
`kline_remove` (a `CONF_KLINE` lookup for the given user/host pattern
pair); per spec §4.2 this is the exact-pattern lookup
`find(userPattern, hostPattern)`, returning the first record with that
key, if any. -/
def find_conf_by_address (reg : Registry) (user host : String) : Option MaskItem :=
  reg.find? (keyMatch user host)

/-- Modelled from the spec: `delete_one_address_conf` removes the found
record — the first record with the given key — from the registry. -/
def delete_one_address_conf (reg : Registry) (user host : String) : Registry :=
  reg.eraseP (keyMatch user host)

/-- Outcome of a registry removal: the spec §4.2 result type
`Result<Removed, NotFound, Protected>`. -/
inductive RemoveResult where
  | removed
  | notFound
  | protected_
deriving DecidableEq, Repr

/-- Source `kline_remove` (m_unkline.c lines 51–72): look the pattern pair
up in the registry and delete the record only when it is a database
(runtime-added) record.  The source function returns `bool`; the outcome
here is refined to the spec's three-valued result, `removed` corresponding
to `true` (record found and of database origin, hence deleted) and the two
`false` branches distinguished as `protected_` (record found but static)
and `notFound` (no record with this key). -/
def kline_remove (reg : Registry) (user host : String) : RemoveResult × Registry :=
  match find_conf_by_address reg user host with
  | some conf =>
      if conf.origin = Origin.database then
        (RemoveResult.removed, delete_one_address_conf reg user host)
      else
        (RemoveResult.protected_, reg)
  | none => (RemoveResult.notFound, reg)

/-- The boolean the source's `kline_remove` actually returns: `true`
exactly on the deleting branch. -/
def kline_removeB (reg : Registry) (user host : String) : Bool :=
  (kline_remove reg user host).1 == RemoveResult.removed

/-- The fields of `struct Client` the UNKLINE handlers read.
`isClient` is modelled from the spec: the source gates the notices sent
back to the requester on `IsClient(source_p)` (a macro outside the
sample), and per spec §4.3 those notices go to the requester exactly when
the request originated locally from a client.  `isService` is
`HasFlag(source_p, FLAGS_SERVICE)`; `hasUnklineFlag` is
`HasOFlag(source_p, OPER_FLAG_UNKLINE)`; `servername` is
`source_p->servptr->name`; `fromLink` is the directly connected peer link
the message arrived over (`source_p->from`), `none` for a locally issued
command. -/
structure Client where
  name : String
  username : String
  host : String
  servername : String
  isClient : Bool
  isService : Bool
  hasUnklineFlag : Bool
  fromLink : Option String
deriving DecidableEq, Repr

/-- Modelled from the spec: the audit log and the operator broadcast name
the actor; the formatting done by the out-of-sample `get_oper_name` is
collapsed to the actor's name. -/
def get_oper_name (c : Client) : String := c.name

/-- Observable effects emitted by the handlers, listed in emission order:
the two error numerics, the two propagation calls (each carrying the
computed recipient list and, for `sendMatchServs`, the tokenized wire
message), and the notices / log entry of the local revocation handler. -/
inductive Event where
  | numericNoPrivs
  | numericNeedMoreParams
  | sendMatchServs (recipients : List String) (msg : List String)
  | clusterDist (recipients : List String) (user host : String)
  | noticeRemoved (user host : String)
  | realopsRemoved (oper user host : String)
  | logRemoved (oper user host : String)
  | noticeNotFound (user host : String)
deriving DecidableEq, Repr

/-- Source `kline_remove_and_notify` (m_unkline.c lines 74–92): attempt
the removal; on success send the requester confirmation (clients only),
the operator broadcast and the audit-log entry, in that order; on failure
send only the "no K-Line found" notice and only to clients. -/
def kline_remove_and_notify (src : Client) (user host : String) (reg : Registry) :
    List Event × Registry :=
  match kline_remove reg user host with
  | (RemoveResult.removed, reg') =>
      ((if src.isClient then [Event.noticeRemoved user host] else []) ++
        [Event.realopsRemoved (get_oper_name src) user host,
         Event.logRemoved (get_oper_name src) user host], reg')
  | (_, reg') =>
      ((if src.isClient then [Event.noticeNotFound user host] else []), reg')

/-- The one capability this subsystem gates on (`CAPAB_UNKLN`). -/
inductive Capab where
  | unkln
deriving DecidableEq, Repr

/-- A directly connected peer server: its name and its advertised
capability set. -/
structure Peer where
  name : String
  capabs : List Capab
deriving DecidableEq, Repr

/-- Modelled from the spec: the Propagation Engine `distribute` (§4.6) —
`sendto_match_servs` enqueues the message to every directly connected peer
whose name is matched by the target pattern `mask` under matcher `m`,
whose capability set contains `capab`, and which is not the link the
request arrived over.  Returns the recipient names in peer-list order. -/
def sendto_match_servs (m : String → String → Bool) (peers : List Peer)
    (excl : Option String) (mask : String) (capab : Capab) : List String :=
  (peers.filter fun p =>
    some p.name != excl && m mask p.name && p.capabs.contains capab).map Peer.name

/-- Modelled from the spec: `clusterDistribute` (§4.6) iterates the
configured cluster links unconditionally — no capability or pattern
filter — and enqueues to each. -/
def cluster_distribute (clusterLinks : List Peer) : List String :=
  clusterLinks.map Peer.name

/-- Action classes of a shared block grant; only `unkline`
(`SHARED_UNKLINE`) is consulted here. -/
inductive SharedAction where
  | unkline
  | other
deriving DecidableEq, Repr

/-- A Trust Store grant (spec §3 `TrustGrant`): patterns for the remote
server, user and host, and the granted action classes. -/
structure TrustGrant where
  serverPattern : String
  userPattern : String
  hostPattern : String
  actions : List SharedAction
deriving DecidableEq, Repr

/-- Modelled from the spec: `shared_find(SHARED_UNKLINE, server, user,
host)` — does the Trust Store contain a grant whose action set includes
the requested action and whose three patterns match the claimed origin
server name, username and hostname (spec §4.5 `AuthorizeAndApply` (b))? -/
def shared_find (m : String → String → Bool) (grants : List TrustGrant)
    (action : SharedAction) (server user host : String) : Bool :=
  grants.any fun g =>
    g.actions.contains action && m g.serverPattern server &&
      m g.userPattern user && m g.hostPattern host

/-- The fields of `struct aline_ctx` filled in by `parse_aline` that the
UNKLINE handlers read: the user pattern, the host pattern and the optional
`ON <server>` target pattern (`aline.server`, a NULL pointer when
absent). -/
structure AlineCtx where
  user : String
  host : String
  server : Option String
deriving DecidableEq, Repr

/-- The source's `EmptyString`: NULL or zero length; an absent `parv`
entry is read as `""`. -/
def emptyString (s : String) : Bool := s.isEmpty

/-- Source `mo_unkline` (m_unkline.c lines 106–142): the operator-issued
UNKLINE handler.  Checks the `unkline` operator flag, then the presence of
`parv[1]`, then parses the arguments; with an explicit `ON <server>`
target it floods to capability-matching peers matched by the target
pattern and applies locally only when the local server name is matched
too (the source's `match()` returns 0 on a match, so its
`if (match(aline.server, me.name)) return 0;` skips the local apply
exactly when the name is not matched); with no target it distributes to
the cluster links and always applies locally.  `parseAline` stands for
the out-of-sample `parse_aline` helper (spec §4.4 `ValidateParameters`);
on failure that helper has already notified the requester itself, so this
model emits no event of its own on that path. -/
def mo_unkline (m : String → String → Bool)
    (parseAline : List String → Option AlineCtx)
    (me : String) (peers clusterLinks : List Peer)
    (src : Client) (parv : List String) (reg : Registry) :
    List Event × Registry :=
  if !src.hasUnklineFlag then
    ([Event.numericNoPrivs], reg)
  else if emptyString (parv.getD 1 "") then
    ([Event.numericNeedMoreParams], reg)
  else
    match parseAline parv with
    | none => ([], reg)
    | some aline =>
        match aline.server with
        | some s =>
            let sendEv := Event.sendMatchServs
              (sendto_match_servs m peers src.fromLink s Capab.unkln)
              ["UNKLINE", s, aline.user, aline.host]
            if m s me then
              let r := kline_remove_and_notify src aline.user aline.host reg
              (sendEv :: r.1, r.2)
            else
              ([sendEv], reg)
        | none =>
            let distEv := Event.clusterDist (cluster_distribute clusterLinks)
              aline.user aline.host
            let r := kline_remove_and_notify src aline.user aline.host reg
            (distEv :: r.1, r.2)

/-- Source `ms_unkline` (m_unkline.c lines 157–185): the peer-server
UNKLINE handler.  `parv = [cmd, target-server-mask, user, host]`; absent
entries are read as `""`.  Drops silently unless `parc` is 4 and the last
parameter is non-empty; then re-floods to the other capability-matching
peers matched by the target mask, and — only when the target mask matches
the local server name and the origin is a service or holds a matching
`unkline` shared grant — applies the removal locally. -/
def ms_unkline (m : String → String → Bool) (grants : List TrustGrant)
    (me : String) (peers : List Peer)
    (src : Client) (parv : List String) (reg : Registry) :
    List Event × Registry :=
  let user := parv.getD 2 ""
  let host := parv.getD 3 ""
  let server := parv.getD 1 ""
  if parv.length != 4 || emptyString (parv.getD (parv.length - 1) "") then
    ([], reg)
  else
    let sendEv := Event.sendMatchServs
      (sendto_match_servs m peers src.fromLink server Capab.unkln)
      ["UNKLINE", server, user, host]
    if !(m server me) then
      ([sendEv], reg)
    else if src.isService || shared_find m grants SharedAction.unkline
        src.servername src.username src.host then
      let r := kline_remove_and_notify src user host reg
      (sendEv :: r.1, r.2)
    else
      ([sendEv], reg)

/-- Is the event a propagation to peers (flood or cluster distribution)? -/
def Event.isPropagation : Event → Bool
  | .sendMatchServs _ _ => true
  | .clusterDist _ _ _ => true
  | _ => false

/-- Is the event an effect of the local revocation attempt (a notice, the
operator broadcast or the audit-log entry)? -/
def Event.isLocalApply : Event → Bool
  | .noticeRemoved _ _ => true
  | .realopsRemoved _ _ _ => true
  | .logRemoved _ _ _ => true
  | .noticeNotFound _ _ => true
  | _ => false

/-- Every propagation event of the trace occurs strictly before every
local-application event. -/
def propBeforeApply (t : List Event) : Prop :=
  ∀ i j : Nat,
    (∃ e, t.get? i = some e ∧ e.isPropagation = true) →
    (∃ e, t.get? j = some e ∧ e.isLocalApply = true) → i < j

end Unkline

namespace Unkline

/-- A first-match lookup is the head of the filtered list. -/
theorem find_eq_head_filter {α : Type} (p : α → Bool) :
    ∀ l : List α, l.find? p = (l.filter p).head? := by
  intro l
  induction l with
  | nil => rfl
  | cons a t ih =>
      cases hp : p a
      · rw [List.find?_cons_of_neg _ (by simp [hp]),
          List.filter_cons_of_neg (by simp [hp]), ih]
      · rw [List.find?_cons_of_pos _ hp, List.filter_cons_of_pos hp]
        rfl

/-- Erasing the first satisfier drops exactly the head of the filtered
list. -/
theorem filter_eraseP {α : Type} (p : α → Bool) :
    ∀ l : List α, (l.eraseP p).filter p = (l.filter p).tail := by
  intro l
  induction l with
  | nil => rfl
  | cons a t ih =>
      cases hp : p a
      · rw [List.eraseP_cons_of_neg (by simp [hp]),
          List.filter_cons_of_neg (by simp [hp]),
          List.filter_cons_of_neg (by simp [hp]), ih]
      · rw [List.eraseP_cons_of_pos hp, List.filter_cons_of_pos hp]
        rfl

/-- Erasing the first satisfier keeps every element distinct from the one
the lookup found. -/
theorem mem_eraseP_of_ne_found {α : Type} {p : α → Bool} {c r : α} :
    ∀ {l : List α}, l.find? p = some c → r ∈ l → r ≠ c → r ∈ l.eraseP p := by
  intro l
  induction l with
  | nil => intro h; simp at h
  | cons a t ih =>
      intro hf hr hne
      cases hp : p a with
      | true =>
          rw [List.find?_cons_of_pos _ hp] at hf
          rw [List.eraseP_cons_of_pos hp]
          simp at hf
          subst hf
          rcases List.mem_cons.mp hr with h | h
          · exact absurd h hne
          · exact h
      | false =>
          rw [List.find?_cons_of_neg _ (by simp [hp])] at hf
          rw [List.eraseP_cons_of_neg (by simp [hp])]
          rcases List.mem_cons.mp hr with h | h
          · exact List.mem_cons.mpr (Or.inl h)
          · exact List.mem_cons.mpr (Or.inr (ih hf h hne))

/-- An element delivered by a positional lookup is a member. -/
theorem mem_of_getEq {α : Type} {a : α} {l : List α} {n : Nat}
    (h : l.get? n = some a) : a ∈ l := by
  rw [List.get?_eq_getElem?] at h
  exact List.getElem?_mem h

/-- A trace without local-application events trivially orders propagation
before application. -/
theorem propBeforeApply_of_no_apply {t : List Event}
    (h : ∀ e ∈ t, e.isLocalApply = false) : propBeforeApply t := by
  intro i j _ hj
  rcases hj with ⟨e, hget, ha⟩
  rw [h e (mem_of_getEq hget)] at ha
  exact absurd ha (by simp)

/-- A trace whose head is not a local-application event and whose tail has
no propagation events orders propagation before application. -/
theorem propBeforeApply_cons {e : Event} {t : List Event}
    (he : e.isLocalApply = false)
    (ht : ∀ x ∈ t, x.isPropagation = false) : propBeforeApply (e :: t) := by
  intro i j hi hj
  rcases hi with ⟨p, hpi, hp⟩
  rcases hj with ⟨a, haj, ha⟩
  cases i with
  | zero =>
      cases j with
      | zero =>
          rw [List.get?_eq_getElem?] at haj
          simp at haj
          subst haj
          rw [he] at ha
          exact absurd ha (by simp)
      | succ j => exact Nat.succ_pos j
  | succ i =>
      have hmem : p ∈ t := by
        rw [List.get?_eq_getElem?] at hpi
        simp at hpi
        exact List.getElem?_mem hpi
      rw [ht p hmem] at hp
      exact absurd hp (by simp)

/-- The local revocation handler emits no propagation event. -/
theorem kan_no_prop (src : Client) (u h : String) (reg : Registry) :
    ∀ e ∈ (kline_remove_and_notify src u h reg).1, e.isPropagation = false := by
  unfold kline_remove_and_notify
  rcases hk : kline_remove reg u h with ⟨res, reg'⟩
  cases res <;> cases hc : src.isClient <;>
    simp [hc, Event.isPropagation]

/-- The local revocation handler emits only local-application events. -/
theorem kan_all_apply (src : Client) (u h : String) (reg : Registry) :
    ∀ e ∈ (kline_remove_and_notify src u h reg).1, e.isLocalApply = true := by
  unfold kline_remove_and_notify
  rcases hk : kline_remove reg u h with ⟨res, reg'⟩
  cases res <;> cases hc : src.isClient <;>
    simp [hc, Event.isLocalApply]

/-- A propagation event followed by the local revocation handler's events
keeps exactly that propagation event under the propagation filter. -/
theorem filter_prop_cons_kan (ev : Event) (hev : ev.isPropagation = true)
    (src : Client) (u h : String) (reg : Registry) :
    (ev :: (kline_remove_and_notify src u h reg).1).filter Event.isPropagation
      = [ev] := by
  have h2 : (kline_remove_and_notify src u h reg).1.filter Event.isPropagation
      = [] := by
    rw [List.filter_eq_nil_iff]
    intro a ha
    simp [kan_no_prop src u h reg a ha]
  rw [List.filter_cons_of_pos hev, h2]

end Unkline

namespace Unkline

/-- C2: a revocation never removes a statically configured record: every
`Static`-origin record survives `kline_remove`, and whenever the registry
lookup finds a static record the call fails with the `Protected` outcome
(the source's `false` return) and leaves the registry unchanged. -/
theorem c2_static_records_protected (reg : Registry) (u h : String) :
    (∀ r ∈ reg, r.origin = Origin.static → r ∈ (kline_remove reg u h).2) ∧
    (∀ c, find_conf_by_address reg u h = some c → c.origin = Origin.static →
      kline_remove reg u h = (RemoveResult.protected_, reg) ∧
        kline_removeB reg u h = false) := by
  constructor
  · intro r hr hstatic
    unfold kline_remove
    cases hf : find_conf_by_address reg u h with
    | none => exact hr
    | some conf =>
        by_cases hdb : conf.origin = Origin.database
        · simp only [hdb, if_pos rfl]
          unfold delete_one_address_conf
          refine mem_eraseP_of_ne_found hf hr ?_
          intro hEq
          rw [hEq, hdb] at hstatic
          exact absurd hstatic (by simp)
        · simp only [if_neg hdb]
          exact hr
  · intro c hf hstatic
    have hnd : ¬ c.origin = Origin.database := by
      rw [hstatic]; simp
    have h1 : kline_remove reg u h = (RemoveResult.protected_, reg) := by
      unfold kline_remove
      rw [hf]
      simp [hnd]
    refine ⟨h1, ?_⟩
    unfold kline_removeB
    rw [h1]
    rfl

/-- C2 witness: a one-record static registry — the record survives and the
call reports the Protected failure. -/
theorem c2_witness :
    kline_remove [⟨"u", "h", Origin.static⟩] "u" "h"
      = (RemoveResult.protected_, [⟨"u", "h", Origin.static⟩]) :=
  ((c2_static_records_protected [⟨"u", "h", Origin.static⟩] "u" "h").2
    ⟨"u", "h", Origin.static⟩ (by decide) rfl).1

/-- C9: on a registry holding exactly one record with the key `(u, h)` (the
§3 uniqueness invariant) and that record of Runtime/database origin, the
removal succeeds exactly once: the first call deletes the record and
returns `Removed`, and a second call with the same pair returns `NotFound`
and leaves the registry unchanged. -/
theorem c9_remove_idempotent (reg : Registry) (u h : String) (r : MaskItem)
    (huniq : reg.filter (keyMatch u h) = [r])
    (hdb : r.origin = Origin.database) :
    kline_remove reg u h = (RemoveResult.removed, delete_one_address_conf reg u h) ∧
    kline_remove (delete_one_address_conf reg u h) u h
      = (RemoveResult.notFound, delete_one_address_conf reg u h) := by
  have hfind : find_conf_by_address reg u h = some r := by
    unfold find_conf_by_address
    rw [find_eq_head_filter, huniq]
    rfl
  have hfind2 : find_conf_by_address (delete_one_address_conf reg u h) u h = none := by
    unfold find_conf_by_address delete_one_address_conf
    rw [find_eq_head_filter, filter_eraseP, huniq]
    rfl
  constructor
  · unfold kline_remove
    rw [hfind]
    simp [hdb]
  · unfold kline_remove
    rw [hfind2]

/-- C9 witness: a one-record database registry — first removal succeeds,
the second attempt reports NotFound. -/
theorem c9_witness :
    ([⟨"u", "h", Origin.database⟩] : Registry).filter (keyMatch "u" "h")
        = [⟨"u", "h", Origin.database⟩] ∧
    kline_remove [⟨"u", "h", Origin.database⟩] "u" "h"
      = (RemoveResult.removed,
         delete_one_address_conf [⟨"u", "h", Origin.database⟩] "u" "h") ∧
    kline_remove (delete_one_address_conf [⟨"u", "h", Origin.database⟩] "u" "h") "u" "h"
      = (RemoveResult.notFound,
         delete_one_address_conf [⟨"u", "h", Origin.database⟩] "u" "h") :=
  ⟨by decide,
   (c9_remove_idempotent _ "u" "h" ⟨"u", "h", Origin.database⟩ (by decide) rfl).1,
   (c9_remove_idempotent _ "u" "h" ⟨"u", "h", Origin.database⟩ (by decide) rfl).2⟩

/-- C5: an operator without the `unkline` operator flag gets the
NoPrivileges numeric and nothing else happens: the registry is returned
unchanged and the trace holds no propagation or notification event. -/
theorem c5_no_privilege (m : String → String → Bool)
    (parseAline : List String → Option AlineCtx) (me : String)
    (peers clusterLinks : List Peer) (src : Client) (parv : List String)
    (reg : Registry) (hflag : src.hasUnklineFlag = false) :
    mo_unkline m parseAline me peers clusterLinks src parv reg
      = ([Event.numericNoPrivs], reg) := by
  unfold mo_unkline
  rw [hflag]
  rfl

/-- C5 witness: a concrete unprivileged operator request. -/
theorem c5_witness :
    mo_unkline (fun a b => a == b) (fun _ => none) "me.example" [] []
        ⟨"oper", "ou", "oh", "me.example", true, false, false, none⟩
        ["UNKLINE", "u@h"] [⟨"u", "h", Origin.database⟩]
      = ([Event.numericNoPrivs], [⟨"u", "h", Origin.database⟩]) :=
  c5_no_privilege _ _ _ _ _ _ _ _ rfl

/-- C8: outcome reporting of the local revocation handler — the requester
confirmation appears exactly on a successful removal for a client
requester, the operator broadcast appears exactly on a successful removal,
exactly one audit-log entry is appended on success and none on failure,
the "no K-Line found" notice appears exactly on failure for a client
requester, and a non-client (peer-originated) requester gets nothing back
on failure. -/
theorem c8_notify_outcomes (src : Client) (u h : String) (reg : Registry) :
    (Event.noticeRemoved u h ∈ (kline_remove_and_notify src u h reg).1 ↔
      ((kline_remove reg u h).1 = RemoveResult.removed ∧ src.isClient = true)) ∧
    (Event.realopsRemoved (get_oper_name src) u h ∈ (kline_remove_and_notify src u h reg).1 ↔
      (kline_remove reg u h).1 = RemoveResult.removed) ∧
    ((kline_remove_and_notify src u h reg).1.count (Event.logRemoved (get_oper_name src) u h)
      = if (kline_remove reg u h).1 = RemoveResult.removed then 1 else 0) ∧
    (Event.noticeNotFound u h ∈ (kline_remove_and_notify src u h reg).1 ↔
      ((kline_remove reg u h).1 ≠ RemoveResult.removed ∧ src.isClient = true)) ∧
    (src.isClient = false → (kline_remove reg u h).1 ≠ RemoveResult.removed →
      (kline_remove_and_notify src u h reg).1 = []) := by
  unfold kline_remove_and_notify
  rcases hk : kline_remove reg u h with ⟨res, reg'⟩
  cases res <;> cases hc : src.isClient <;>
    simp [hc, List.count_cons, List.count_nil]

/-- C8 witness: a successful removal requested by a client — the
confirmation notice is delivered. -/
theorem c8_witness :
    Event.noticeRemoved "u" "h" ∈
      (kline_remove_and_notify ⟨"oper", "ou", "oh", "os", true, false, true, none⟩
        "u" "h" [⟨"u", "h", Origin.database⟩]).1 :=
  ((c8_notify_outcomes ⟨"oper", "ou", "oh", "os", true, false, true, none⟩
      "u" "h" [⟨"u", "h", Origin.database⟩]).1).mpr ⟨by decide, rfl⟩

end Unkline

namespace Unkline

/-- Shape of the operator-handler trace: either a registry-independent
trace free of propagation and local-application events, or a single
registry-independent propagation event, or one registry-independent
propagation event followed by exactly the local revocation handler's
events. -/
theorem mo_trace_cases (m : String → String → Bool)
    (parseAline : List String → Option AlineCtx) (me : String)
    (peers clusterLinks : List Peer) (src : Client) (parv : List String) :
    (∃ t0, (∀ e ∈ t0, e.isLocalApply = false) ∧ (∀ e ∈ t0, e.isPropagation = false) ∧
      ∀ reg₂ : Registry,
        (mo_unkline m parseAline me peers clusterLinks src parv reg₂).1 = t0) ∨
    (∃ ev, ev.isPropagation = true ∧ ev.isLocalApply = false ∧
      ∀ reg₂ : Registry,
        (mo_unkline m parseAline me peers clusterLinks src parv reg₂).1 = [ev]) ∨
    (∃ ev u h, ev.isPropagation = true ∧ ev.isLocalApply = false ∧
      ∀ reg₂ : Registry,
        (mo_unkline m parseAline me peers clusterLinks src parv reg₂).1
          = ev :: (kline_remove_and_notify src u h reg₂).1) := by
  cases hflag : src.hasUnklineFlag with
  | false =>
      refine Or.inl ⟨[Event.numericNoPrivs], by simp [Event.isLocalApply],
        by simp [Event.isPropagation], fun reg₂ => ?_⟩
      unfold mo_unkline
      rw [hflag]
      rfl
  | true =>
      cases hemp : emptyString (parv.getD 1 "") with
      | true =>
          refine Or.inl ⟨[Event.numericNeedMoreParams], by simp [Event.isLocalApply],
            by simp [Event.isPropagation], fun reg₂ => ?_⟩
          unfold mo_unkline
          rw [hflag, hemp]
          rfl
      | false =>
          cases hpa : parseAline parv with
          | none =>
              refine Or.inl ⟨[], by simp, by simp, fun reg₂ => ?_⟩
              unfold mo_unkline
              rw [hflag, hemp, hpa]
              rfl
          | some aline =>
              cases hsrv : aline.server with
              | some s =>
                  cases hm : m s me with
                  | false =>
                      refine Or.inr (Or.inl ⟨Event.sendMatchServs
                        (sendto_match_servs m peers src.fromLink s Capab.unkln)
                        ["UNKLINE", s, aline.user, aline.host], rfl, rfl, fun reg₂ => ?_⟩)
                      unfold mo_unkline
                      rw [hflag, hemp, hpa]
                      show ((match aline.server with
                        | some s => _
                        | none => _ : List Event × Registry)).1 = _
                      rw [hsrv]
                      show (if m s me = true then _ else _ : List Event × Registry).1 = _
                      rw [hm]
                      rfl
                  | true =>
                      refine Or.inr (Or.inr ⟨Event.sendMatchServs
                        (sendto_match_servs m peers src.fromLink s Capab.unkln)
                        ["UNKLINE", s, aline.user, aline.host], aline.user, aline.host,
                        rfl, rfl, fun reg₂ => ?_⟩)
                      unfold mo_unkline
                      rw [hflag, hemp, hpa]
                      show ((match aline.server with
                        | some s => _
                        | none => _ : List Event × Registry)).1 = _
                      rw [hsrv]
                      show (if m s me = true then _ else _ : List Event × Registry).1 = _
                      rw [hm]
                      rfl
              | none =>
                  refine Or.inr (Or.inr ⟨Event.clusterDist (cluster_distribute clusterLinks)
                    aline.user aline.host, aline.user, aline.host,
                    rfl, rfl, fun reg₂ => ?_⟩)
                  unfold mo_unkline
                  rw [hflag, hemp, hpa]
                  show ((match aline.server with
                    | some s => _
                    | none => _ : List Event × Registry)).1 = _
                  rw [hsrv]

/-- Shape of the peer-handler trace: same three possibilities as the
operator handler. -/
theorem ms_trace_cases (m : String → String → Bool) (grants : List TrustGrant)
    (me : String) (peers : List Peer) (src : Client) (parv : List String) :
    (∃ t0, (∀ e ∈ t0, e.isLocalApply = false) ∧ (∀ e ∈ t0, e.isPropagation = false) ∧
      ∀ reg₂ : Registry, (ms_unkline m grants me peers src parv reg₂).1 = t0) ∨
    (∃ ev, ev.isPropagation = true ∧ ev.isLocalApply = false ∧
      ∀ reg₂ : Registry, (ms_unkline m grants me peers src parv reg₂).1 = [ev]) ∨
    (∃ ev u h, ev.isPropagation = true ∧ ev.isLocalApply = false ∧
      ∀ reg₂ : Registry, (ms_unkline m grants me peers src parv reg₂).1
        = ev :: (kline_remove_and_notify src u h reg₂).1) := by
  cases hfr : (parv.length != 4 || emptyString (parv.getD (parv.length - 1) "")) with
  | true =>
      refine Or.inl ⟨[], by simp, by simp, fun reg₂ => ?_⟩
      unfold ms_unkline
      simp only []
      rw [hfr]
      rfl
  | false =>
      cases hm : m (parv.getD 1 "") me with
      | false =>
          refine Or.inr (Or.inl ⟨Event.sendMatchServs
            (sendto_match_servs m peers src.fromLink (parv.getD 1 "") Capab.unkln)
            ["UNKLINE", parv.getD 1 "", parv.getD 2 "", parv.getD 3 ""],
            rfl, rfl, fun reg₂ => ?_⟩)
          unfold ms_unkline
          simp only []
          rw [hfr, hm]
          rfl
      | true =>
          cases hauth : (src.isService || shared_find m grants SharedAction.unkline
              src.servername src.username src.host) with
          | false =>
              refine Or.inr (Or.inl ⟨Event.sendMatchServs
                (sendto_match_servs m peers src.fromLink (parv.getD 1 "") Capab.unkln)
                ["UNKLINE", parv.getD 1 "", parv.getD 2 "", parv.getD 3 ""],
                rfl, rfl, fun reg₂ => ?_⟩)
              unfold ms_unkline
              simp only []
              rw [hfr, hm, hauth]
              rfl
          | true =>
              refine Or.inr (Or.inr ⟨Event.sendMatchServs
                (sendto_match_servs m peers src.fromLink (parv.getD 1 "") Capab.unkln)
                ["UNKLINE", parv.getD 1 "", parv.getD 2 "", parv.getD 3 ""],
                parv.getD 2 "", parv.getD 3 "",
                rfl, rfl, fun reg₂ => ?_⟩)
              unfold ms_unkline
              simp only []
              rw [hfr, hm, hauth]
              rfl

/-- C4: in both handlers, every propagation event of the emitted trace
strictly precedes every local-application event, and the propagation part
of the trace is identical whatever the registry contents — so the outcome
of the local removal can neither precede nor condition the forwarding. -/
theorem c4_propagation_first (m : String → String → Bool)
    (parseAline : List String → Option AlineCtx) (grants : List TrustGrant)
    (me : String) (peers clusterLinks : List Peer) (src : Client)
    (parv : List String) (reg : Registry) :
    propBeforeApply (mo_unkline m parseAline me peers clusterLinks src parv reg).1 ∧
    propBeforeApply (ms_unkline m grants me peers src parv reg).1 ∧
    (∀ reg₂, (mo_unkline m parseAline me peers clusterLinks src parv reg).1.filter
        Event.isPropagation
      = (mo_unkline m parseAline me peers clusterLinks src parv reg₂).1.filter
        Event.isPropagation) ∧
    (∀ reg₂, (ms_unkline m grants me peers src parv reg).1.filter Event.isPropagation
      = (ms_unkline m grants me peers src parv reg₂).1.filter Event.isPropagation) := by
  have hmo := mo_trace_cases m parseAline me peers clusterLinks src parv
  have hms := ms_trace_cases m grants me peers src parv
  refine ⟨?_, ?_, ?_, ?_⟩
  · rcases hmo with ⟨t0, ha, _, ht⟩ | ⟨ev, hp, ha, ht⟩ | ⟨ev, u, h, hp, ha, ht⟩
    · rw [ht reg]; exact propBeforeApply_of_no_apply ha
    · rw [ht reg]
      exact propBeforeApply_cons ha (by intro x hx; simp at hx)
    · rw [ht reg]; exact propBeforeApply_cons ha (kan_no_prop src u h reg)
  · rcases hms with ⟨t0, ha, _, ht⟩ | ⟨ev, hp, ha, ht⟩ | ⟨ev, u, h, hp, ha, ht⟩
    · rw [ht reg]; exact propBeforeApply_of_no_apply ha
    · rw [ht reg]
      exact propBeforeApply_cons ha (by intro x hx; simp at hx)
    · rw [ht reg]; exact propBeforeApply_cons ha (kan_no_prop src u h reg)
  · intro reg₂
    rcases hmo with ⟨t0, _, _, ht⟩ | ⟨ev, hp, _, ht⟩ | ⟨ev, u, h, hp, _, ht⟩
    · rw [ht reg, ht reg₂]
    · rw [ht reg, ht reg₂]
    · rw [ht reg, ht reg₂, filter_prop_cons_kan ev hp, filter_prop_cons_kan ev hp]
  · intro reg₂
    rcases hms with ⟨t0, _, _, ht⟩ | ⟨ev, hp, _, ht⟩ | ⟨ev, u, h, hp, _, ht⟩
    · rw [ht reg, ht reg₂]
    · rw [ht reg, ht reg₂]
    · rw [ht reg, ht reg₂, filter_prop_cons_kan ev hp, filter_prop_cons_kan ev hp]

end Unkline

namespace Unkline

/-- C3: target resolution of a validated operator UNKLINE — with an
explicit `ON <server>` target pattern the message is flooded to exactly
the capability-matching peers whose name the pattern matches (other than
the arrival link), and the local removal is additionally applied if and
only if the local server's own name matches the pattern; with no target
pattern the message goes to the cluster links and the local removal is
always applied. -/
theorem c3_oper_target_resolution (m : String → String → Bool)
    (parseAline : List String → Option AlineCtx) (me : String)
    (peers clusterLinks : List Peer) (src : Client) (parv : List String)
    (reg : Registry) (aline : AlineCtx)
    (hflag : src.hasUnklineFlag = true)
    (hp1 : emptyString (parv.getD 1 "") = false)
    (hparse : parseAline parv = some aline) :
    (∀ s, aline.server = some s →
      (mo_unkline m parseAline me peers clusterLinks src parv reg =
        if m s me then
          (Event.sendMatchServs (sendto_match_servs m peers src.fromLink s Capab.unkln)
              ["UNKLINE", s, aline.user, aline.host] ::
            (kline_remove_and_notify src aline.user aline.host reg).1,
           (kline_remove_and_notify src aline.user aline.host reg).2)
        else
          ([Event.sendMatchServs (sendto_match_servs m peers src.fromLink s Capab.unkln)
              ["UNKLINE", s, aline.user, aline.host]], reg)) ∧
      ∀ pname, pname ∈ sendto_match_servs m peers src.fromLink s Capab.unkln ↔
        ∃ p ∈ peers, p.name = pname ∧ some p.name ≠ src.fromLink ∧
          m s p.name = true ∧ p.capabs.contains Capab.unkln = true) ∧
    (aline.server = none →
      mo_unkline m parseAline me peers clusterLinks src parv reg =
        (Event.clusterDist (cluster_distribute clusterLinks) aline.user aline.host ::
          (kline_remove_and_notify src aline.user aline.host reg).1,
         (kline_remove_and_notify src aline.user aline.host reg).2)) := by
  constructor
  · intro s hs
    constructor
    · unfold mo_unkline
      rw [hflag, hp1, hparse]
      show (match aline.server with
        | some s => _
        | none => _ : List Event × Registry) = _
      rw [hs]
    · intro pname
      unfold sendto_match_servs
      simp only [List.mem_map, List.mem_filter, Bool.and_eq_true, bne_iff_ne]
      constructor
      · rintro ⟨p, ⟨hp, ⟨hne, hm2⟩, hcap⟩, hname⟩
        exact ⟨p, hp, hname, hne, hm2, hcap⟩
      · rintro ⟨p, hp, hname, hne, hm2, hcap⟩
        exact ⟨p, ⟨hp, ⟨hne, hm2⟩, hcap⟩, hname⟩
  · intro hs
    unfold mo_unkline
    rw [hflag, hp1, hparse]
    show (match aline.server with
      | some s => _
      | none => _ : List Event × Registry) = _
    rw [hs]

/-- C6: with no explicit target pattern, distribution to the configured
cluster links is unconditional — the recipient list is every configured
cluster link's name, with no capability gate and no pattern filter. -/
theorem c6_cluster_unconditional (m : String → String → Bool)
    (parseAline : List String → Option AlineCtx) (me : String)
    (peers clusterLinks : List Peer) (src : Client) (parv : List String)
    (reg : Registry) (aline : AlineCtx)
    (hflag : src.hasUnklineFlag = true)
    (hp1 : emptyString (parv.getD 1 "") = false)
    (hparse : parseAline parv = some aline)
    (hsrv : aline.server = none) :
    (mo_unkline m parseAline me peers clusterLinks src parv reg).1.head?
      = some (Event.clusterDist (clusterLinks.map Peer.name) aline.user aline.host) ∧
    cluster_distribute clusterLinks = clusterLinks.map Peer.name := by
  constructor
  · unfold mo_unkline
    rw [hflag, hp1, hparse]
    show ((match aline.server with
      | some s => _
      | none => _ : List Event × Registry)).1.head? = _
    rw [hsrv]
    rfl
  · rfl

/-- C7 amended: the peer handler drops the message silently — no event,
no registry change — unless the parameter count is exactly 4 and the
last parameter (the host mask) is non-empty; when the count is 4 and the
last parameter is non-empty the message is processed (re-flooded),
whether or not the other parameters are empty. -/
theorem c7_amended_framing (m : String → String → Bool) (grants : List TrustGrant)
    (me : String) (peers : List Peer) (src : Client) (parv : List String)
    (reg : Registry) :
    ((parv.length ≠ 4 ∨ emptyString (parv.getD (parv.length - 1) "") = true) →
      ms_unkline m grants me peers src parv reg = ([], reg)) ∧
    (parv.length = 4 → emptyString (parv.getD 3 "") = false →
      (ms_unkline m grants me peers src parv reg).1.head?
        = some (Event.sendMatchServs
            (sendto_match_servs m peers src.fromLink (parv.getD 1 "") Capab.unkln)
            ["UNKLINE", parv.getD 1 "", parv.getD 2 "", parv.getD 3 ""])) := by
  constructor
  · intro hbad
    have hfr : (parv.length != 4 || emptyString (parv.getD (parv.length - 1) "")) = true := by
      rcases hbad with hb | hb
      · have h1 : (parv.length != 4) = true := by
          rw [bne_iff_ne]
          exact hb
        rw [h1, Bool.true_or]
      · rw [hb, Bool.or_true]
    unfold ms_unkline
    simp only []
    rw [hfr]
    rfl
  · intro hlen hlast
    have hfr : (parv.length != 4 || emptyString (parv.getD (parv.length - 1) "")) = false := by
      rw [hlen, show (4 : Nat) - 1 = 3 from rfl, hlast]
      rfl
    unfold ms_unkline
    simp only []
    rw [hfr]
    show (if (!(m (parv.getD 1 "") me)) = true then _ else _
      : List Event × Registry).1.head? = _
    cases hm : m (parv.getD 1 "") me
    · rfl
    · cases hauth : (src.isService || shared_find m grants SharedAction.unkline
        src.servername src.username src.host) <;> rfl

end Unkline

namespace Unkline

/-- C10: wire-format round trip — the message the operator handler
floods is the four-field list `["UNKLINE", target, user, host]`; received
by the peer handler, that very list passes the framing check (it is
re-flooded, with the identical four fields re-emitted) and is interpreted
with the same triple: field 1 as the target-server mask and, when the
removal is applied, fields 2 and 3 as the user and host patterns handed
to the local revocation handler. -/
theorem c10_wire_roundtrip (m : String → String → Bool)
    (parseAline : List String → Option AlineCtx) (me : String)
    (peers clusterLinks : List Peer) (src : Client) (parv : List String)
    (reg : Registry) (u h s : String)
    (hflag : src.hasUnklineFlag = true)
    (hp1 : emptyString (parv.getD 1 "") = false)
    (hparse : parseAline parv = some ⟨u, h, some s⟩)
    (hh : emptyString h = false) :
    (mo_unkline m parseAline me peers clusterLinks src parv reg).1.head?
      = some (Event.sendMatchServs (sendto_match_servs m peers src.fromLink s Capab.unkln)
          ["UNKLINE", s, u, h]) ∧
    ∀ (m₂ : String → String → Bool) (grants : List TrustGrant) (me₂ : String)
        (peers₂ : List Peer) (src₂ : Client) (reg₂ : Registry),
      ((ms_unkline m₂ grants me₂ peers₂ src₂ ["UNKLINE", s, u, h] reg₂).1.head?
        = some (Event.sendMatchServs
            (sendto_match_servs m₂ peers₂ src₂.fromLink s Capab.unkln)
            ["UNKLINE", s, u, h])) ∧
      (m₂ s me₂ = true →
        (src₂.isService = true ∨ shared_find m₂ grants SharedAction.unkline
          src₂.servername src₂.username src₂.host = true) →
        ms_unkline m₂ grants me₂ peers₂ src₂ ["UNKLINE", s, u, h] reg₂
          = (Event.sendMatchServs
              (sendto_match_servs m₂ peers₂ src₂.fromLink s Capab.unkln)
              ["UNKLINE", s, u, h] ::
             (kline_remove_and_notify src₂ u h reg₂).1,
           (kline_remove_and_notify src₂ u h reg₂).2)) := by
  constructor
  · unfold mo_unkline
    rw [hflag, hp1, hparse]
    show (if m s me = true then _ else _ : List Event × Registry).1.head? = _
    cases hm : m s me <;> rfl
  · intro m₂ grants me₂ peers₂ src₂ reg₂
    have hfr : ((["UNKLINE", s, u, h] : List String).length != 4
        || emptyString ((["UNKLINE", s, u, h] : List String).getD
            ((["UNKLINE", s, u, h] : List String).length - 1) "")) = false := by
      show (false || emptyString h) = false
      rw [Bool.false_or]
      exact hh
    constructor
    · unfold ms_unkline
      simp only []
      rw [hfr]
      show (if (!(m₂ s me₂)) = true then _ else _ : List Event × Registry).1.head? = _
      cases hm₂ : m₂ s me₂
      · rfl
      · cases hauth₂ : (src₂.isService || shared_find m₂ grants SharedAction.unkline
          src₂.servername src₂.username src₂.host) <;> rfl
    · intro hm₂ hauth₂
      have hb : (src₂.isService || shared_find m₂ grants SharedAction.unkline
          src₂.servername src₂.username src₂.host) = true := by
        rcases hauth₂ with hx | hx <;> rw [hx] <;> simp
      unfold ms_unkline
      simp only []
      rw [hfr]
      show (if (!(m₂ s me₂)) = true then _ else _ : List Event × Registry) = _
      rw [hm₂]
      show (if (src₂.isService || shared_find m₂ grants SharedAction.unkline
        src₂.servername src₂.username src₂.host) = true then _ else _
          : List Event × Registry) = _
      rw [hb]
      rfl

end Unkline

namespace Unkline

/-- C1: authorization of a peer revocation whose framing is valid and whose
target pattern matches the local server name — the local removal (with its
notices and audit entry) runs if and only if the origin carries the
service flag or the Trust Store holds a matching `unkline` grant; when
neither holds, the handler still re-floods but returns the registry
unchanged and emits no notice or log event. -/
theorem c1_peer_authorization (m : String → String → Bool)
    (grants : List TrustGrant) (me : String) (peers : List Peer)
    (src : Client) (parv : List String) (reg : Registry)
    (hlen : parv.length = 4)
    (hlast : emptyString (parv.getD 3 "") = false)
    (hmatch : m (parv.getD 1 "") me = true) :
    (src.isService = true ∨
        shared_find m grants SharedAction.unkline src.servername src.username src.host = true →
      ms_unkline m grants me peers src parv reg =
        (Event.sendMatchServs
            (sendto_match_servs m peers src.fromLink (parv.getD 1 "") Capab.unkln)
            ["UNKLINE", parv.getD 1 "", parv.getD 2 "", parv.getD 3 ""] ::
          (kline_remove_and_notify src (parv.getD 2 "") (parv.getD 3 "") reg).1,
         (kline_remove_and_notify src (parv.getD 2 "") (parv.getD 3 "") reg).2)) ∧
    (src.isService = false →
      shared_find m grants SharedAction.unkline src.servername src.username src.host = false →
      ms_unkline m grants me peers src parv reg =
        ([Event.sendMatchServs
            (sendto_match_servs m peers src.fromLink (parv.getD 1 "") Capab.unkln)
            ["UNKLINE", parv.getD 1 "", parv.getD 2 "", parv.getD 3 ""]], reg)) := by
  constructor
  · intro hauth
    unfold ms_unkline
    rw [hlen]
    simp only [show ((4 : Nat) != 4) = false from rfl, Bool.false_or,
      show (4 : Nat) - 1 = 3 from rfl, hlast, hmatch, Bool.not_true, Bool.false_eq_true,
      if_false]
    rcases hauth with hsvc | hsh
    · simp [hsvc]
    · simp [hsh]
  · intro hsvc hsh
    unfold ms_unkline
    rw [hlen]
    simp only [show ((4 : Nat) != 4) = false from rfl, Bool.false_or,
      show (4 : Nat) - 1 = 3 from rfl, hlast, hmatch, Bool.not_true, Bool.false_eq_true,
      if_false]
    simp [hsvc, hsh]

/-- Literal-equality instantiation of the abstract mask matcher, used for
concrete test inputs. -/
def matchLit (a b : String) : Bool := a == b

/-- A privileged local operator, for concrete test inputs. -/
def operEx : Client := ⟨"oper", "ou", "oh", "me.example", true, false, true, none⟩

/-- A remote origin with neither the service flag nor any grant, arriving
over the `hub.example` link, for concrete test inputs. -/
def strangerEx : Client :=
  ⟨"jdoe", "baduser", "bad.host.example", "rogue.example", false, false, false,
    some "hub.example"⟩

/-- A service origin arriving over the `hub.example` link, for concrete
test inputs. -/
def svcEx : Client :=
  ⟨"svc", "su", "sh", "services.example", false, true, false, some "hub.example"⟩

/-- A one-record runtime-added registry, for concrete test inputs. -/
def regEx : Registry := [⟨"u", "h.example", Origin.database⟩]

/-- A single capability-bearing peer, for concrete test inputs. -/
def peersEx : List Peer := [⟨"peer.example", [Capab.unkln]⟩]

/-- A parse stub returning a fixed parse result, standing for a successful
`parse_aline` run on concrete test inputs. -/
def parseConst (a : AlineCtx) : List String → Option AlineCtx := fun _ => some a

/-- C1 witness: an unauthorized remote origin on a matching target — the
message is re-flooded but the registry is returned unchanged and no
notice or log event is emitted. -/
theorem c1_witness :
    (["UNKLINE", "me.example", "u", "h.example"] : List String).length = 4 ∧
    emptyString (["UNKLINE", "me.example", "u", "h.example"].getD 3 "") = false ∧
    matchLit (["UNKLINE", "me.example", "u", "h.example"].getD 1 "") "me.example" = true ∧
    strangerEx.isService = false ∧
    shared_find matchLit [] SharedAction.unkline strangerEx.servername
      strangerEx.username strangerEx.host = false ∧
    ms_unkline matchLit [] "me.example" peersEx strangerEx
        ["UNKLINE", "me.example", "u", "h.example"] regEx
      = ([Event.sendMatchServs
          (sendto_match_servs matchLit peersEx strangerEx.fromLink "me.example" Capab.unkln)
          ["UNKLINE", "me.example", "u", "h.example"]], regEx) :=
  ⟨rfl, rfl, rfl, rfl, rfl,
    (c1_peer_authorization matchLit [] "me.example" peersEx strangerEx
      ["UNKLINE", "me.example", "u", "h.example"] regEx rfl rfl rfl).2 rfl rfl⟩

end Unkline

namespace Unkline

/-- Two configured cluster links, one of which lacks the `UNKLN`
capability, for concrete test inputs. -/
def clusterEx : List Peer := [⟨"c1", []⟩, ⟨"c2", [Capab.unkln]⟩]

/-- C3 witness: an explicit target pattern not matching the local server —
the message is flooded (here reaching no peer, the only peer's name not
being matched) and the local registry is left unchanged. -/
theorem c3_witness :
    operEx.hasUnklineFlag = true ∧
    emptyString ((["UNKLINE", "u@h.example", "ON", "remote.example"] : List String).getD 1 "")
      = false ∧
    parseConst ⟨"u", "h.example", some "remote.example"⟩
        ["UNKLINE", "u@h.example", "ON", "remote.example"]
      = some ⟨"u", "h.example", some "remote.example"⟩ ∧
    mo_unkline matchLit (parseConst ⟨"u", "h.example", some "remote.example"⟩)
        "me.example" peersEx [] operEx
        ["UNKLINE", "u@h.example", "ON", "remote.example"] regEx
      = ([Event.sendMatchServs []
          ["UNKLINE", "remote.example", "u", "h.example"]], regEx) :=
  ⟨rfl, rfl, rfl,
    ((c3_oper_target_resolution matchLit
      (parseConst ⟨"u", "h.example", some "remote.example"⟩) "me.example" peersEx []
      operEx ["UNKLINE", "u@h.example", "ON", "remote.example"] regEx
      ⟨"u", "h.example", some "remote.example"⟩ rfl rfl rfl).1 "remote.example" rfl).1⟩

/-- C4 witness: a concrete operator request and a concrete peer request —
in both traces every propagation event precedes every local-application
event. -/
theorem c4_witness :
    propBeforeApply (mo_unkline matchLit
      (parseConst ⟨"u", "h.example", some "me.example"⟩) "me.example" peersEx []
      operEx ["UNKLINE", "me.example", "u", "h.example"] regEx).1 ∧
    propBeforeApply (ms_unkline matchLit [] "me.example" peersEx operEx
      ["UNKLINE", "me.example", "u", "h.example"] regEx).1 :=
  ⟨(c4_propagation_first matchLit (parseConst ⟨"u", "h.example", some "me.example"⟩)
      [] "me.example" peersEx [] operEx
      ["UNKLINE", "me.example", "u", "h.example"] regEx).1,
   (c4_propagation_first matchLit (parseConst ⟨"u", "h.example", some "me.example"⟩)
      [] "me.example" peersEx [] operEx
      ["UNKLINE", "me.example", "u", "h.example"] regEx).2.1⟩

/-- C6 witness: a cluster request — both configured cluster links receive
it, including the one without the `UNKLN` capability. -/
theorem c6_witness :
    operEx.hasUnklineFlag = true ∧
    emptyString ((["UNKLINE", "u@h.example"] : List String).getD 1 "") = false ∧
    parseConst ⟨"u", "h.example", none⟩ ["UNKLINE", "u@h.example"]
      = some ⟨"u", "h.example", none⟩ ∧
    (mo_unkline matchLit (parseConst ⟨"u", "h.example", none⟩) "me.example" peersEx
        clusterEx operEx ["UNKLINE", "u@h.example"] regEx).1.head?
      = some (Event.clusterDist ["c1", "c2"] "u" "h.example") :=
  ⟨rfl, rfl, rfl,
    (c6_cluster_unconditional matchLit (parseConst ⟨"u", "h.example", none⟩)
      "me.example" peersEx clusterEx operEx ["UNKLINE", "u@h.example"] regEx
      ⟨"u", "h.example", none⟩ rfl rfl rfl rfl).1⟩

/-- C7 counterexample: a peer message with exactly 4 parameters whose user
field (`parv[2]`) is empty — the claim's framing rule says it must be
dropped silently with no forwarding, but the handler forwards it to the
matching peer and only the last parameter was checked. -/
theorem c7_counterexample :
    emptyString ((["UNKLINE", "peer.example", "", "h.example"] : List String).getD 2 "")
      = true ∧
    ms_unkline matchLit [] "me.example" peersEx strangerEx
        ["UNKLINE", "peer.example", "", "h.example"] regEx
      = ([Event.sendMatchServs ["peer.example"]
          ["UNKLINE", "peer.example", "", "h.example"]], regEx) :=
  ⟨rfl, rfl⟩

/-- C7 witness: a two-parameter message is dropped with nothing emitted,
while a four-parameter message with a non-empty last field is processed
and re-flooded. -/
theorem c7_witness :
    ((["UNKLINE", "x"] : List String).length ≠ 4 ∨
      emptyString ((["UNKLINE", "x"] : List String).getD
        ((["UNKLINE", "x"] : List String).length - 1) "") = true) ∧
    ms_unkline matchLit [] "me.example" peersEx strangerEx ["UNKLINE", "x"] regEx
      = ([], regEx) ∧
    (["UNKLINE", "peer.example", "", "h.example"] : List String).length = 4 ∧
    emptyString ((["UNKLINE", "peer.example", "", "h.example"] : List String).getD 3 "")
      = false ∧
    (ms_unkline matchLit [] "me.example" peersEx strangerEx
        ["UNKLINE", "peer.example", "", "h.example"] regEx).1.head?
      = some (Event.sendMatchServs
          (sendto_match_servs matchLit peersEx strangerEx.fromLink "peer.example"
            Capab.unkln)
          ["UNKLINE", "peer.example", "", "h.example"]) :=
  ⟨Or.inl (by decide),
   (c7_amended_framing matchLit [] "me.example" peersEx strangerEx
      ["UNKLINE", "x"] regEx).1 (Or.inl (by decide)),
   rfl, rfl,
   (c7_amended_framing matchLit [] "me.example" peersEx strangerEx
      ["UNKLINE", "peer.example", "", "h.example"] regEx).2 rfl rfl⟩

/-- C10 witness: a concrete distribution request — the emitted four-field
message, handed to the peer handler, passes framing, is re-flooded
identically, and its user/host fields reach the local revocation
handler unchanged. -/
theorem c10_witness :
    operEx.hasUnklineFlag = true ∧
    emptyString ((["UNKLINE", "u@h.example", "ON", "srv.example"] : List String).getD 1 "")
      = false ∧
    parseConst ⟨"u", "h.example", some "srv.example"⟩
        ["UNKLINE", "u@h.example", "ON", "srv.example"]
      = some ⟨"u", "h.example", some "srv.example"⟩ ∧
    emptyString "h.example" = false ∧
    (mo_unkline matchLit (parseConst ⟨"u", "h.example", some "srv.example"⟩)
        "me.example" peersEx [] operEx
        ["UNKLINE", "u@h.example", "ON", "srv.example"] regEx).1.head?
      = some (Event.sendMatchServs
          (sendto_match_servs matchLit peersEx operEx.fromLink "srv.example" Capab.unkln)
          ["UNKLINE", "srv.example", "u", "h.example"]) ∧
    (ms_unkline matchLit [] "srv.example" peersEx svcEx
        ["UNKLINE", "srv.example", "u", "h.example"] regEx).1.head?
      = some (Event.sendMatchServs
          (sendto_match_servs matchLit peersEx svcEx.fromLink "srv.example" Capab.unkln)
          ["UNKLINE", "srv.example", "u", "h.example"]) ∧
    ms_unkline matchLit [] "srv.example" peersEx svcEx
        ["UNKLINE", "srv.example", "u", "h.example"] regEx
      = (Event.sendMatchServs
          (sendto_match_servs matchLit peersEx svcEx.fromLink "srv.example" Capab.unkln)
          ["UNKLINE", "srv.example", "u", "h.example"] ::
         (kline_remove_and_notify svcEx "u" "h.example" regEx).1,
        (kline_remove_and_notify svcEx "u" "h.example" regEx).2) :=
  ⟨rfl, rfl, rfl, rfl,
   (c10_wire_roundtrip matchLit (parseConst ⟨"u", "h.example", some "srv.example"⟩)
      "me.example" peersEx [] operEx ["UNKLINE", "u@h.example", "ON", "srv.example"]
      regEx "u" "h.example" "srv.example" rfl rfl rfl rfl).1,
   ((c10_wire_roundtrip matchLit (parseConst ⟨"u", "h.example", some "srv.example"⟩)
      "me.example" peersEx [] operEx ["UNKLINE", "u@h.example", "ON", "srv.example"]
      regEx "u" "h.example" "srv.example" rfl rfl rfl rfl).2
     matchLit [] "srv.example" peersEx svcEx regEx).1,
   ((c10_wire_roundtrip matchLit (parseConst ⟨"u", "h.example", some "srv.example"⟩)
      "me.example" peersEx [] operEx ["UNKLINE", "u@h.example", "ON", "srv.example"]
      regEx "u" "h.example" "srv.example" rfl rfl rfl rfl).2
     matchLit [] "srv.example" peersEx svcEx regEx).2 rfl (Or.inl rfl)⟩

end Unkline
